import Mathlib

/-!
Verification development for the easy-ics text-to-event extraction pipeline.

The definitions below are a shallow embedding of the Python sources
`backend/app/services/parser_service.py`,
`backend/app/services/parser/re_parser.py`,
`backend/app/services/parser/datetime_parser.py` and
`backend/app/services/parser/event_parser.py`.

Conventions of the embedding:
- Python strings are modelled as `List Char` (the Lean `String` wrappers
  convert via `String.data`).
- `datetime.datetime` values are modelled by `PyDateTime` records of
  year/month/day/hour/minute (all datetimes built by this code have zero
  seconds and microseconds, and no comparison or arithmetic performed by
  the code distinguishes equal second fields, so they are omitted).
  The constructor validation (`ValueError` on out-of-range fields) is
  modelled by `mkDatetime : ... → Option PyDateTime`, and
  `datetime + timedelta` overflow past year 9999 (`OverflowError`) by
  `addOneHour` / `addOneDay` returning `none`.
- The external `dateparser` library is not repository code; it is
  abstracted as an oracle parameter `oracle : List Char → Option PyDateTime`
  together with an availability flag `avail : Bool`, exactly at the points
  where the source calls `dateparser.parse` behind
  `DATEPARSER_AVAILABLE` / try-except.
- Python's `re` is Unicode-aware; the inputs handled by this code are
  ASCII plus CJK text, and the character classes are modelled accordingly
  (`\d` as ASCII digits, `\s` as the Python whitespace set, `\w` as ASCII
  word characters plus CJK ideographs).
- Regex matching is embedded per pattern as a backtracking matcher in
  continuation style; `re.search` semantics (leftmost match, alternation
  priority, greedy/lazy repetition) are reproduced by the order in which
  alternatives are tried (`<|>`).
-/

namespace EasyICS

/-! ### Character classes (Python `str.strip` / `re` classes) -/

/-- Python whitespace (the set accepted by `str.isspace`, which is also what
`str.strip()` strips and what `re`'s `\s` matches on `str` patterns). -/
def pyIsSpace (c : Char) : Bool :=
  c = ' ' || c = '\t' || c = '\n' || c = '\r' || c.val = 0x0b || c.val = 0x0c ||
  c.val = 0x1c || c.val = 0x1d || c.val = 0x1e || c.val = 0x1f || c.val = 0x85 ||
  c.val = 0xa0 || c.val = 0x1680 || (0x2000 ≤ c.val && c.val ≤ 0x200a) ||
  c.val = 0x2028 || c.val = 0x2029 || c.val = 0x202f || c.val = 0x205f || c.val = 0x3000

/-- Python `\w` (modelled for ASCII plus CJK ideographs, the scripts this
pipeline is designed for). -/
def pyIsWord (c : Char) : Bool :=
  ('a' ≤ c && c ≤ 'z') || ('A' ≤ c && c ≤ 'Z') || ('0' ≤ c && c ≤ '9') || c = '_' ||
  (0x4e00 ≤ c.val && c.val ≤ 0x9fff)

/-- ASCII lowercasing, as applied by `str.lower()` / `re.IGNORECASE` to the
ASCII letters occurring in this code's keywords and patterns. -/
def asciiLower (c : Char) : Char :=
  if 'A' ≤ c && c ≤ 'Z' then Char.ofNat (c.toNat + 32) else c

def lowerL (l : List Char) : List Char := l.map asciiLower

def digitVal (c : Char) : Nat := c.toNat - '0'.toNat

def digitsToNat (l : List Char) : Nat := l.foldl (fun a c => 10 * a + digitVal c) 0

/-- `str.strip()`: drop leading Python whitespace. -/
def dropLeadingSpaces (l : List Char) : List Char := l.dropWhile pyIsSpace

/-- `str.strip()`: drop trailing Python whitespace. -/
def dropTrailingSpaces : List Char → List Char
  | [] => []
  | c :: t =>
    match dropTrailingSpaces t with
    | [] => if pyIsSpace c then [] else [c]
    | r => c :: r

/-- Python `str.strip()`. -/
def pyStripL (l : List Char) : List Char := dropTrailingSpaces (dropLeadingSpaces l)

/-- `needle` is a prefix of `hay`. -/
def isPrefixL : List Char → List Char → Bool
  | [], _ => true
  | _ :: _, [] => false
  | a :: as, b :: bs => a = b && isPrefixL as bs

/-- Python substring containment (`needle in hay`). -/
def containsL (needle : List Char) : List Char → Bool
  | [] => needle.isEmpty
  | c :: t => isPrefixL needle (c :: t) || containsL needle t

/-- Python `str.split(sep)` for a single-character separator (no maxsplit);
`"".split(c) = [""]`. -/
def splitOnChar (c : Char) : List Char → List (List Char)
  | [] => [[]]
  | a :: t =>
    if a = c then [] :: splitOnChar c t
    else
      match splitOnChar c t with
      | h :: r => (a :: h) :: r
      | [] => [[a]]

/-! ### Python `datetime` model -/

structure PyDateTime where
  year : Nat
  month : Nat
  day : Nat
  hour : Nat
  minute : Nat
deriving DecidableEq, Repr

/-- Day count of a month in the proleptic Gregorian calendar
(`calendar`-module rules used by `datetime`). -/
def daysInMonth (y m : Nat) : Nat :=
  if m = 2 then (if (y % 4 = 0 && y % 100 ≠ 0) || y % 400 = 0 then 29 else 28)
  else if m = 4 || m = 6 || m = 9 || m = 11 then 30
  else 31

/-- The field ranges accepted by the `datetime.datetime` constructor. -/
def PyDateTime.Valid (d : PyDateTime) : Prop :=
  1 ≤ d.year ∧ d.year ≤ 9999 ∧ 1 ≤ d.month ∧ d.month ≤ 12 ∧
  1 ≤ d.day ∧ d.day ≤ daysInMonth d.year d.month ∧ d.hour ≤ 23 ∧ d.minute ≤ 59

instance (d : PyDateTime) : Decidable d.Valid := by
  unfold PyDateTime.Valid; infer_instance

/-- `datetime.datetime(y, mo, d, hh, mi)`: `none` models the `ValueError`
raised on out-of-range components. -/
def mkDatetime (y mo d hh mi : Nat) : Option PyDateTime :=
  if 1 ≤ y ∧ y ≤ 9999 ∧ 1 ≤ mo ∧ mo ≤ 12 ∧ 1 ≤ d ∧ d ≤ daysInMonth y mo ∧ hh ≤ 23 ∧ mi ≤ 59
  then some ⟨y, mo, d, hh, mi⟩ else none

/-- `datetime` comparison (lexicographic on the fields; second/microsecond
fields are equal wherever this code compares datetimes). -/
def PyDateTime.ltB (a b : PyDateTime) : Bool :=
  if a.year ≠ b.year then a.year < b.year
  else if a.month ≠ b.month then a.month < b.month
  else if a.day ≠ b.day then a.day < b.day
  else if a.hour ≠ b.hour then a.hour < b.hour
  else a.minute < b.minute

def PyDateTime.leB (a b : PyDateTime) : Bool := !(PyDateTime.ltB b a)

/-- `dt + timedelta(days=1)`; `none` models `OverflowError` past year 9999. -/
def addOneDay (d : PyDateTime) : Option PyDateTime :=
  if d.day + 1 ≤ daysInMonth d.year d.month then some ⟨d.year, d.month, d.day + 1, d.hour, d.minute⟩
  else if d.month + 1 ≤ 12 then some ⟨d.year, d.month + 1, 1, d.hour, d.minute⟩
  else if d.year + 1 ≤ 9999 then some ⟨d.year + 1, 1, 1, d.hour, d.minute⟩
  else none

/-- `dt + timedelta(hours=1)`; `none` models `OverflowError` past year 9999. -/
def addOneHour (d : PyDateTime) : Option PyDateTime :=
  if d.hour + 1 ≤ 23 then some ⟨d.year, d.month, d.day, d.hour + 1, d.minute⟩
  else addOneDay ⟨d.year, d.month, d.day, 0, d.minute⟩

/-- `dt.replace(hour=h, minute=m)`; `none` models the `ValueError` on
out-of-range hour/minute. -/
def PyDateTime.replaceHM (d : PyDateTime) (h m : Nat) : Option PyDateTime :=
  if h ≤ 23 ∧ m ≤ 59 then some ⟨d.year, d.month, d.day, h, m⟩ else none

/-! ### `re_parser.trim_text` (the TextNormalizer)

Python source order: `strip` → `re.sub(" +", " ")` → `re.sub("[\n\r\t]+", " ")`
→ OCR-artifact removal → punctuation replacements → collapse of repeated
punctuation → final `strip`. -/

/-- Collapse every maximal run of characters satisfying `p` to the single
character `r` (`re.sub(cls+ , r, ·)`); the Bool argument tracks whether the
previous character was part of a run. -/
def collapseRuns (p : Char → Bool) (r : Char) : Bool → List Char → List Char
  | _, [] => []
  | inRun, c :: t =>
    if p c then
      if inRun then collapseRuns p r true t else r :: collapseRuns p r true t
    else c :: collapseRuns p r false t

def isNlTab (c : Char) : Bool := c = '\n' || c = '\r' || c = '\t'

/-- The class `[|¦ॉ]` of `re.sub(r"(?<!\w)[|¦ॉ][|\s]", " ", text)`
(codepoints 0x7c, 0xa6, 0x949). -/
def isOcrGlyph (c : Char) : Bool := c.val = 0x7c || c.val = 0xa6 || c.val = 0x949

/-- `re.sub(r"(?<!\w)[|¦ॉ][|\s]", " ", text)`: left-to-right non-overlapping
replacement; the lookbehind inspects the original character before the
current position, tracked by `prevIsWord` (false at the string start). -/
def ocrSub : Bool → List Char → List Char
  | _, [] => []
  | _, [c] => [c]
  | prevIsWord, c :: d :: t2 =>
    if isOcrGlyph c && !prevIsWord then
      if d = '|' || pyIsSpace d then ' ' :: ocrSub (pyIsWord d) t2
      else c :: ocrSub (pyIsWord c) (d :: t2)
    else c :: ocrSub (pyIsWord c) (d :: t2)

/-- The `replacements` dict of `trim_text`, applied via `str.replace`.
In the source the two double-quote entries actually parse as a single
triple-quoted-string key containing `\n\t` (which can never match at this
stage: all `\n\r\t` were already replaced by spaces), and the two
single-quote entries are ASCII-apostrophe identity replacements; both are
no-ops, so the effective replacements are the six full-width punctuation
characters. -/
def cnMap (c : Char) : Char :=
  if c.val = 0xff1a then ':'
  else if c.val = 0xff0c then ','
  else if c.val = 0xff1b then ';'
  else if c.val = 0x3002 then '.'
  else if c.val = 0xff08 then '('
  else if c.val = 0xff09 then ')'
  else c

/-- The class `[.,;:!?]` of `re.sub(r"[.,;:!?]{2,}", lambda m: m.group(0)[0], ·)`. -/
def isPunctRun (c : Char) : Bool :=
  c = '.' || c = ',' || c = ';' || c = ':' || c = '!' || c = '?'

/-- `re.sub(r"[.,;:!?]{2,}", lambda m: m.group(0)[0], text)`: each maximal run
of these characters is replaced by its first character (a run of length one
is unchanged, so this is exactly the `{2,}` replacement).  Fuel-driven: every
step consumes at least one character, so `l.length + 1` fuel always
suffices. -/
def punctCollapseAux : Nat → List Char → List Char
  | 0, l => l
  | _ + 1, [] => []
  | fuel + 1, c :: t =>
    if isPunctRun c then c :: punctCollapseAux fuel (t.dropWhile isPunctRun)
    else c :: punctCollapseAux fuel t

def punctCollapse (l : List Char) : List Char := punctCollapseAux (l.length + 1) l

/-- `re_parser.trim_text` on `List Char`. -/
def trimTextL (l : List Char) : List Char :=
  if l = [] then []
  else
    pyStripL (punctCollapse ((ocrSub false
      (collapseRuns isNlTab ' ' false
        (collapseRuns (· = ' ') ' ' false (pyStripL l)))).map cnMap))

/-- `re_parser.trim_text` (also the identical normalizer reached through
`ParserService`). -/
def trim_text (s : String) : String := ⟨trimTextL s.data⟩

/-! ### The `DATE_PATTERNS` regex cascade

Each of the seven compiled patterns of `re_parser.py` (textually identical in
`datetime_parser.py`) is embedded as a matcher at a fixed position, written in
continuation-passing style so that `<|>` reproduces the backtracking priority
of Python's engine (greedy repetitions try the longer alternative first,
alternations are tried in source order).  `reSearch` then reproduces
`pattern.search`: the match at the leftmost possible start position wins. -/

/-- The named groups a `DATE_PATTERNS` match can bind (`match.groupdict()`).
`monthName` stores the matched month name lowercased (the lookup in
`_build_datetime_from_match` lowercases it anyway). -/
structure DateGroups where
  year : Option Nat
  month : Option Nat
  monthName : Option (List Char)
  day : Nat
  hour : Option Nat
  minute : Option Nat
deriving DecidableEq, Repr

/-- Match exactly `n` ASCII digits (`\d{n}` as one greedy alternative),
passing the numeric value and the rest to the continuation. -/
def dExact {α : Type} (n : Nat) (l : List Char) (k : Nat → List Char → Option α) : Option α :=
  if (l.take n).length = n && (l.take n).all Char.isDigit then
    k (digitsToNat (l.take n)) (l.drop n)
  else none

/-- `\d{1,2}` (greedy: two digits first, then one). -/
def d12 {α : Type} (l : List Char) (k : Nat → List Char → Option α) : Option α :=
  dExact 2 l k <|> dExact 1 l k

/-- A single character from the class `p`. -/
def chCl {α : Type} (p : Char → Bool) (l : List Char) (k : Char → List Char → Option α) : Option α :=
  match l with
  | c :: t => if p c then k c t else none
  | [] => none

def isDashSlash (c : Char) : Bool := c = '-' || c = '/'

/-- `\s*` (greedy with backtracking: longer consumption tried first). -/
def wsMore {α : Type} (l : List Char) (k : List Char → Option α) : Option α :=
  match l with
  | c :: t => if pyIsSpace c then wsMore t k <|> k (c :: t) else k (c :: t)
  | [] => k []

/-- `\s+` (at least one whitespace character, greedy). -/
def ws1 {α : Type} (l : List Char) (k : List Char → Option α) : Option α :=
  match l with
  | c :: t => if pyIsSpace c then wsMore t k else none
  | [] => none

/-- Case-insensitive literal prefix (`pat` given lowercased); returns the rest. -/
def matchPrefixCI (pat : List Char) (l : List Char) : Option (List Char) :=
  if (l.take pat.length).length = pat.length && lowerL (l.take pat.length) = pat then
    some (l.drop pat.length)
  else none

/-- `(?::(?P<minute>\d{1,2}))?` after an hour, for the `[ T]HH:MM` tails of
patterns 1–5; `f` assembles the groups. -/
def minTail (f : Option Nat → Option Nat → DateGroups) (h : Nat) (l : List Char) :
    Option DateGroups :=
  (chCl (· = ':') l fun _ l2 =>
    d12 l2 fun mi _ => some (f (some h) (some mi))) <|>
  some (f (some h) none)

/-- `(?:[ T](?P<hour>\d{1,2})(?::(?P<minute>\d{1,2}))?)?` for patterns 1–3. -/
def timeTailSp (f : Option Nat → Option Nat → DateGroups) (l : List Char) :
    Option DateGroups :=
  (chCl (fun c => c = ' ' || c = 'T') l fun _ l2 =>
    d12 l2 fun h l3 => minTail f h l3) <|>
  some (f none none)

/-- `(?:\s+(?P<hour>\d{1,2})(?::(?P<minute>\d{1,2}))?)?` for patterns 4–5. -/
def timeTailWs (f : Option Nat → Option Nat → DateGroups) (l : List Char) :
    Option DateGroups :=
  (ws1 l fun l2 => d12 l2 fun h l3 => minTail f h l3) <|>
  some (f none none)

/-- Pattern 1 (ISO): year `\d{4}`, month `\d{1,2}`, day `\d{1,2}`, separated by dash or slash,
with optional `[ T]HH(:MM)?` tail. -/
def matchISO (l : List Char) : Option DateGroups :=
  dExact 4 l fun y l1 =>
    chCl isDashSlash l1 fun _ l2 =>
      d12 l2 fun mo l3 =>
        chCl isDashSlash l3 fun _ l4 =>
          d12 l4 fun d l5 =>
            timeTailSp (fun h mi => ⟨some y, some mo, none, d, h, mi⟩) l5

/-- Pattern 2 (day first): day `\d{1,2}`, month `\d{1,2}`, year `\d{4}`, separated by dash or slash,
with optional `[ T]HH(:MM)?` tail. -/
def matchDayFirst (l : List Char) : Option DateGroups :=
  d12 l fun d l1 =>
    chCl isDashSlash l1 fun _ l2 =>
      d12 l2 fun mo l3 =>
        chCl isDashSlash l3 fun _ l4 =>
          dExact 4 l4 fun y l5 =>
            timeTailSp (fun h mi => ⟨some y, some mo, none, d, h, mi⟩) l5

/-- Pattern 3 (US style): month `\d{1,2}`, day `\d{1,2}`, year `\d{4}`, separated by dash or slash,
with optional `[ T]HH(:MM)?` tail. -/
def matchUS (l : List Char) : Option DateGroups :=
  d12 l fun mo l1 =>
    chCl isDashSlash l1 fun _ l2 =>
      d12 l2 fun d l3 =>
        chCl isDashSlash l3 fun _ l4 =>
          dExact 4 l4 fun y l5 =>
            timeTailSp (fun h mi => ⟨some y, some mo, none, d, h, mi⟩) l5

/-- The `MONTH_NAME_PATTERN` alternation in Python source order, with the
greedy optional full spellings expanded (longer spelling first, mirroring
e.g. `Jan(?:uary)?` and `Sep(?:t(?:ember)?)?`). -/
def monthCands : List (List Char) :=
  ["january".data, "jan".data, "february".data, "feb".data, "march".data, "mar".data,
   "april".data, "apr".data, "may".data, "june".data, "jun".data, "july".data, "jul".data,
   "august".data, "aug".data, "september".data, "sept".data, "sep".data,
   "october".data, "oct".data, "november".data, "nov".data, "december".data, "dec".data]

/-- `(?P<month_name>...)` (case-insensitive), with continuation backtracking
through the alternatives. -/
def monthAlt {α : Type} (l : List Char) (k : List Char → List Char → Option α) : Option α :=
  monthCands.foldr
    (fun pat acc =>
      (match matchPrefixCI pat l with
       | some r => k pat r
       | none => none) <|> acc)
    none

/-- `(?:st|nd|rd|th)?` (case-insensitive, greedy). -/
def ordOpt {α : Type} (l : List Char) (k : List Char → Option α) : Option α :=
  (["st".data, "nd".data, "rd".data, "th".data].foldr
    (fun pat acc =>
      (match matchPrefixCI pat l with
       | some r => k r
       | none => none) <|> acc)
    none) <|> k l

/-- `,?` (greedy). -/
def commaOpt {α : Type} (l : List Char) (k : List Char → Option α) : Option α :=
  (match l with
   | ',' :: t => k t
   | _ => none) <|> k l

/-- `(?:,?\s+(?P<year>\d{4}))?` (greedy). -/
def yearOpt {α : Type} (l : List Char) (k : Option Nat → List Char → Option α) : Option α :=
  (commaOpt l fun l1 => ws1 l1 fun l2 => dExact 4 l2 fun y l3 => k (some y) l3) <|>
  k none l

/-- Tail shared by patterns 4 and 5 after the day group: ordinal suffix,
optional year, optional time. -/
def mnTail (nm : List Char) (d : Nat) (l : List Char) : Option DateGroups :=
  ordOpt l fun l1 =>
    yearOpt l1 fun y l2 =>
      timeTailWs (fun h mi => ⟨y, none, some nm, d, h, mi⟩) l2

/-- Pattern 4: `(?P<month_name>...)\s+(?P<day>\d{1,2})(?:st|nd|rd|th)?`
with optional `,?\s+YYYY` and optional time (IGNORECASE). -/
def matchMonthNameDay (l : List Char) : Option DateGroups :=
  monthAlt l fun nm l1 =>
    ws1 l1 fun l2 =>
      d12 l2 fun d l3 => mnTail nm d l3

/-- Pattern 5: `(?P<day>\d{1,2})(?:st|nd|rd|th)?\s+(?P<month_name>...)`
with optional `,?\s+YYYY` and optional time (IGNORECASE). -/
def matchDayMonthName (l : List Char) : Option DateGroups :=
  d12 l fun d l1 =>
    ordOpt l1 fun l2 =>
      ws1 l2 fun l3 =>
        monthAlt l3 fun nm l4 =>
          yearOpt l4 fun y l5 =>
            timeTailWs (fun h mi => ⟨y, none, some nm, d, h, mi⟩) l5

/-- `(?:[:：](?P<minute>\d{1,2}))?` for the Chinese patterns. -/
def cnMinTail (f : Option Nat → Option Nat → DateGroups) (h : Nat) (l : List Char) :
    Option DateGroups :=
  (chCl (fun c => c = ':' || c.val = 0xff1a) l fun _ l2 =>
    d12 l2 fun mi _ => some (f (some h) (some mi))) <|>
  some (f (some h) none)

/-- `(?:\s*(?P<hour>\d{1,2})(?:[:：](?P<minute>\d{1,2}))?)?` for the Chinese
patterns. -/
def cnTimeOpt (f : Option Nat → Option Nat → DateGroups) (l : List Char) :
    Option DateGroups :=
  (wsMore l fun l1 => d12 l1 fun h l2 => cnMinTail f h l2) <|>
  some (f none none)

/-- `日?` (greedy). -/
def riOpt {α : Type} (l : List Char) (k : List Char → Option α) : Option α :=
  (match l with
   | c :: t => if c = '日' then k t else none
   | [] => none) <|> k l

/-- Shared tail of patterns 6 and 7 from the month group on:
`月(?P<day>\d{1,2})日?` plus the optional Chinese time tail. -/
def cnAfterMonth (y : Option Nat) (mo : Nat) (l : List Char) : Option DateGroups :=
  chCl (· = '月') l fun _ l1 =>
    d12 l1 fun d l2 =>
      riOpt l2 fun l3 =>
        cnTimeOpt (fun h mi => ⟨y, some mo, none, d, h, mi⟩) l3

/-- Pattern 6 (Chinese full date): `(?P<year>\d{2,4})年(?P<month>\d{1,2})月(?P<day>\d{1,2})日?`
with optional time (`\d{2,4}` greedy: 4, then 3, then 2 digits). -/
def matchCnFull (l : List Char) : Option DateGroups :=
  (dExact 4 l fun y l1 => chCl (· = '年') l1 fun _ l2 => d12 l2 fun mo l3 => cnAfterMonth (some y) mo l3) <|>
  (dExact 3 l fun y l1 => chCl (· = '年') l1 fun _ l2 => d12 l2 fun mo l3 => cnAfterMonth (some y) mo l3) <|>
  (dExact 2 l fun y l1 => chCl (· = '年') l1 fun _ l2 => d12 l2 fun mo l3 => cnAfterMonth (some y) mo l3)

/-- Pattern 7 (Chinese month/day): `(?P<month>\d{1,2})月(?P<day>\d{1,2})日?`
with optional time. -/
def matchCnMD (l : List Char) : Option DateGroups :=
  d12 l fun mo l1 => cnAfterMonth none mo l1

/-- `pattern.search`: try the matcher at every start position, leftmost first
(also at the empty suffix, as Python does). -/
def reSearch {α : Type} (m : List Char → Option α) : List Char → Option α
  | [] => m []
  | c :: t => m (c :: t) <|> reSearch m t

/-- `re_parser.DATE_PATTERNS` in cascade order. -/
def datePatterns : List (List Char → Option DateGroups) :=
  [matchISO, matchDayFirst, matchUS, matchMonthNameDay, matchDayMonthName,
   matchCnFull, matchCnMD]

/-- `re_parser.MONTH_NAME_LOOKUP.get(name.lower())` (the stored group is
already lowercased). -/
def monthLookup (nm : List Char) : Option Nat :=
  ([("jan", 1), ("january", 1), ("feb", 2), ("february", 2), ("mar", 3), ("march", 3),
    ("apr", 4), ("april", 4), ("may", 5), ("jun", 6), ("june", 6), ("jul", 7), ("july", 7),
    ("aug", 8), ("august", 8), ("sep", 9), ("sept", 9), ("september", 9),
    ("oct", 10), ("october", 10), ("nov", 11), ("november", 11), ("dec", 12), ("december", 12)]
    : List (String × Nat)).foldr
      (fun p acc => if nm = p.1.data then some p.2 else acc) none

/-- `re_parser._build_datetime_from_match` (with `default_year` already
resolved to the current year by the only caller `parse_simple_date`):
resolve year (default), month (numeric group or month-name lookup via
`MONTH_NAME_LOOKUP`), day, hour/minute defaulting to 0, then validate via
the `datetime` constructor. -/
def buildFromGroups (g : DateGroups) (defaultYear : Nat) : Option PyDateTime :=
  let y := match g.year with
    | some v => v
    | none => defaultYear
  let mo? : Option Nat := match g.month with
    | some v => some v
    | none =>
      match g.monthName with
      | some nm => monthLookup nm
      | none => none
  match mo? with
  | none => none
  | some mo => mkDatetime y mo g.day (g.hour.getD 0) (g.minute.getD 0)

def optFirst {α : Type} : List (Option α) → Option α
  | [] => none
  | a :: t => a <|> optFirst t

/-- `re_parser.parse_simple_date` (with `datetime.date.today().year` passed in
as `currentYear`): first pattern whose first match builds a valid datetime
wins; a pattern whose match builds an invalid date is skipped and the cascade
continues. -/
def parse_simple_dateL (currentYear : Nat) (l : List Char) : Option PyDateTime :=
  if l = [] then none
  else optFirst (datePatterns.map fun p => (reSearch p l).bind (buildFromGroups · currentYear))

def parse_simple_date (currentYear : Nat) (s : String) : Option PyDateTime :=
  parse_simple_dateL currentYear s.data

/-- `re_parser.parse_date_with_dateparser`: empty text → `None`; if the
`dateparser` library is unavailable, regex fallback; otherwise the library
call (oracle; `none` covers both a failed parse and a raised exception),
falling back to the regex cascade. -/
def parse_date_with_dateparser (avail : Bool) (oracle : List Char → Option PyDateTime)
    (currentYear : Nat) (l : List Char) : Option PyDateTime :=
  if l = [] then none
  else if !avail then parse_simple_dateL currentYear l
  else
    match oracle l with
    | some d => some d
    | none => parse_simple_dateL currentYear l

/-! ### `DateTimeParser.extract_datetime_range` (datetime_parser.py)

The body runs inside one `try`; any raised exception (a `ValueError` from
`datetime.replace`, an `OverflowError` from `+ timedelta(days=1)`) is caught
and turned into `(None, None)`.  The body is therefore modelled in
`Except Unit` and unwrapped at the end. -/

/-- Second separator and day group of the date token; `n` is the length
consumed so far. -/
def dateTokAfterMonth (l : List Char) (n : Nat) : Option Nat :=
  chCl isDashSlash l fun _ l2 =>
    (dExact 2 l2 fun _ _ => some (n + 3)) <|> (dExact 1 l2 fun _ _ => some (n + 2))

/-- The date token `\d{4}` dash-or-slash `\d{1,2}` dash-or-slash `\d{1,2}` of
`range_pattern`, as the consumed length (day group greedy). -/
def matchDateTokLen (l : List Char) : Option Nat :=
  dExact 4 l fun _ l1 =>
    chCl isDashSlash l1 fun _ l2 =>
      (dExact 2 l2 fun _ l3 => dateTokAfterMonth l3 7) <|>
      (dExact 1 l2 fun _ l3 => dateTokAfterMonth l3 6)

/-- `(?:-|~|to)` of `range_pattern` (source order, case-sensitive). -/
def sepRange {α : Type} (l : List Char) (k : List Char → Option α) : Option α :=
  (match l with
   | '-' :: t => k t
   | _ => none) <|>
  (match l with
   | '~' :: t => k t
   | _ => none) <|>
  (match l with
   | 't' :: 'o' :: t => k t
   | _ => none)

/-- `range_pattern` at a fixed position: two date tokens joined by
`\s*(?:-|~|to)\s*`; returns (group 1, group 2, rest after the match). -/
def matchRangeAt (l : List Char) : Option (List Char × List Char × List Char) :=
  match matchDateTokLen l with
  | none => none
  | some n1 =>
    wsMore (l.drop n1) fun l2 =>
      sepRange l2 fun l3 =>
        wsMore l3 fun l4 =>
          match matchDateTokLen l4 with
          | none => none
          | some n2 => some (l.take n1, l4.take n2, l4.drop n2)

/-- `(\d{1,2}):(\d{1,2})` at a fixed position, returning the rest. -/
def matchHMr (l : List Char) : Option (Nat × Nat × List Char) :=
  d12 l fun h l1 =>
    chCl (· = ':') l1 fun _ l2 =>
      d12 l2 fun m l3 => some (h, m, l3)

/-- `re.search(r"(\d{1,2}):(\d{1,2})", ·)`, used on the 20-character window
after a date range. -/
def timeSearch (l : List Char) : Option (Nat × Nat × List Char) :=
  reSearch matchHMr l

/-- `(?:-|~|到|至)` of `time_range_pattern` (source order). -/
def sepTimeRange {α : Type} (l : List Char) (k : List Char → Option α) : Option α :=
  (match l with
   | '-' :: t => k t
   | _ => none) <|>
  (match l with
   | '~' :: t => k t
   | _ => none) <|>
  (match l with
   | c :: t => if c = '到' then k t else none
   | _ => none) <|>
  (match l with
   | c :: t => if c = '至' then k t else none
   | _ => none)

/-- The time range `(\d{1,2}):(\d{1,2})\s*(?:-|~|到|至)\s*(\d{1,2}):(\d{1,2})`
at a fixed position. -/
def matchTimeRange (l : List Char) : Option (Nat × Nat × Nat × Nat) :=
  match matchHMr l with
  | none => none
  | some (h1, m1, l1) =>
    wsMore l1 fun l2 =>
      sepTimeRange l2 fun l3 =>
        wsMore l3 fun l4 =>
          match matchHMr l4 with
          | none => none
          | some (h2, m2, _) => some (h1, m1, h2, m2)

/-- The time attachment of lines 324–331: if a `(\d{1,2}):(\d{1,2})` occurs in
the 20 characters after the range match, `start_time.replace(hour, minute)`
(whose `ValueError` propagates as `.error`); otherwise the start is kept. -/
def attachStartE (rest : List Char) (st : PyDateTime) : Except Unit PyDateTime :=
  match timeSearch (rest.take 20) with
  | some (h, m, _) =>
    match st.replaceHM h m with
    | some st2 => .ok st2
    | none => .error ()
  | none => .ok st

/-- The `if end_time.hour == 0 and end_time.minute == 0` end-of-day
adjustment of the date-range branch. -/
def eodFix (en : PyDateTime) : PyDateTime :=
  if en.hour = 0 ∧ en.minute = 0 then ⟨en.year, en.month, en.day, 23, 59⟩ else en

/-- Pattern 1 of `extract_datetime_range`: the explicit date-range branch.
`.ok (some (s, e))` means the branch returned `(s, e)`; `.ok none` means
control fell through to pattern 2; `.error` models a raised `ValueError`. -/
def rangeStep (currentYear : Nat) (l : List Char) :
    Except Unit (Option (PyDateTime × PyDateTime)) :=
  match reSearch matchRangeAt l with
  | none => .ok none
  | some (g1, g2, rest) =>
    let start0 := parse_simple_dateL currentYear g1
    let end0 := parse_simple_dateL currentYear g2
    match start0 with
    | none => .ok none
    | some st =>
      match attachStartE rest st with
      | .error e => .error e
      | .ok st2 =>
        match end0 with
        | none => .ok none
        | some en => .ok (some (st2, eodFix en))

/-- Pattern 2 of `extract_datetime_range`: single anchor plus optional
`HH:MM-HH:MM` time range, with next-day rollover when the end precedes the
start. -/
def timeRangeStep (avail : Bool) (oracle : List Char → Option PyDateTime)
    (currentYear : Nat) (l : List Char) :
    Except Unit (Option PyDateTime × Option PyDateTime) :=
  let st0 := parse_date_with_dateparser avail oracle currentYear l
  let st1 := match st0 with
    | some s => some s
    | none => parse_simple_dateL currentYear l
  match st1 with
  | none => .ok (none, none)
  | some st =>
    match reSearch matchTimeRange l with
    | none => .ok (some st, none)
    | some (sh, sm, eh, em) =>
      match st.replaceHM sh sm with
      | none => .error ()
      | some st2 =>
        match st2.replaceHM eh em with
        | none => .error ()
        | some en0 =>
          if en0.ltB st2 then
            match addOneDay en0 with
            | none => .error ()
            | some en => .ok (some st2, some en)
          else .ok (some st2, some en0)

/-- Body of `DateTimeParser.extract_datetime_range` before the exception
handler. -/
def edrBody (avail : Bool) (oracle : List Char → Option PyDateTime)
    (currentYear : Nat) (l : List Char) :
    Except Unit (Option PyDateTime × Option PyDateTime) :=
  if l = [] then .ok (none, none)
  else
    match rangeStep currentYear l with
    | .error e => .error e
    | .ok (some (s, e)) => .ok (some s, some e)
    | .ok none => timeRangeStep avail oracle currentYear l

/-- `DateTimeParser.extract_datetime_range` (`extract_range` in the spec):
any exception in the body is caught and yields `(None, None)`. -/
def extract_datetime_range (avail : Bool) (oracle : List Char → Option PyDateTime)
    (currentYear : Nat) (s : String) : Option PyDateTime × Option PyDateTime :=
  match edrBody avail oracle currentYear s.data with
  | .ok p => p
  | .error _ => (none, none)

/-! ### `EventParser.extract_event_number` (the EventSegmenter) -/

/-- The delimiter `\n\s*\d+\.`: a newline, whitespace, one or more digits and
a literal dot; returns the rest after the match (`\s*` and `\d+` are greedy,
and nothing that follows can make a shorter repetition succeed). -/
def matchNumDelimRest (l : List Char) : Option (List Char) :=
  match l with
  | '\n' :: t =>
    let t1 := t.dropWhile pyIsSpace
    let d := t1.takeWhile Char.isDigit
    if d.isEmpty then none
    else
      match t1.drop d.length with
      | '.' :: r => some r
      | _ => none
  | _ => none

/-- `re.split(r'\n\s*\d+\.', text)`: cut at every non-overlapping leftmost
match (fuel-driven recursion; every step consumes at least one character, so
`l.length + 1` fuel always suffices). -/
def splitNumAux : Nat → List Char → List Char → List (List Char)
  | 0, acc, l => [acc.reverse ++ l]
  | fuel + 1, acc, l =>
    match matchNumDelimRest l with
    | some r => acc.reverse :: splitNumAux fuel [] r
    | none =>
      match l with
      | [] => [acc.reverse]
      | c :: t => splitNumAux fuel (c :: acc) t

def splitNum (l : List Char) : List (List Char) := splitNumAux (l.length + 1) [] l

/-- The delimiter `\n\n+` (two or more newlines, greedy), returning the rest. -/
def matchNNRest (l : List Char) : Option (List Char) :=
  match l with
  | '\n' :: '\n' :: t => some (t.dropWhile (· = '\n'))
  | _ => none

/-- `re.split(r'\n\n+', text)`. -/
def splitNNAux : Nat → List Char → List Char → List (List Char)
  | 0, acc, l => [acc.reverse ++ l]
  | fuel + 1, acc, l =>
    match matchNNRest l with
    | some r => acc.reverse :: splitNNAux fuel [] r
    | none =>
      match l with
      | [] => [acc.reverse]
      | c :: t => splitNNAux fuel (c :: acc) t

def splitNN (l : List Char) : List (List Char) := splitNNAux (l.length + 1) [] l

/-- `EventParser.extract_event_number`: split by numbered items if present,
else by blank lines, else the whole (stripped) text as a single event.  (The
body is pure, so the `except` fallback of the source is unreachable.) -/
def extract_event_numberL (l : List Char) : List (List Char) :=
  if l = [] ∨ pyStripL l = [] then []
  else
    let events :=
      if (reSearch matchNumDelimRest l).isSome then
        ((splitNum l).map pyStripL).filter (· ≠ [])
      else if containsL ['\n', '\n'] l then
        ((splitNN l).map pyStripL).filter (· ≠ [])
      else []
    if events = [] then [pyStripL l] else events

def extract_event_number (s : String) : List String :=
  (extract_event_numberL s.data).map fun l => ⟨l⟩

/-! ### `ParserService` (parser_service.py)

`ParserService.parse` validates the input, normalizes it with
`re_parser.trim_text`, extracts one datetime / title / location /
description / priority from the whole cleaned text, and builds a single
`Event` with `end_time = start_time + 1 hour` and a 15-minute reminder.
`ValueError` and any other exception are logged and re-raised (lines 83–88),
so the function either returns a one-element list or raises; the only
possible exceptions are the empty-input `ValueError` and an `OverflowError`
from `start + timedelta(hours=1)` (every helper catches its own
exceptions internally and is total). -/

/-- `app.models.event.EventPriority`. -/
inductive EventPriority
  | low
  | medium
  | high
deriving DecidableEq, Repr

/-- `app.models.event.Event` (the constructor stores the fields as given). -/
structure Event where
  title : List Char
  start_time : PyDateTime
  end_time : PyDateTime
  location : Option (List Char)
  description : Option (List Char)
  priority : EventPriority
  reminder_minutes : Option Nat
deriving DecidableEq, Repr

/-- `ParserService._extract_datetime`: `parse_date_with_dateparser` with
languages `["en", "zh"]`, then the regex fallback; its `try` can never fire
(both callees are total). -/
def extractDatetimeL (avail : Bool) (oracle : List Char → Option PyDateTime)
    (currentYear : Nat) (l : List Char) : Option PyDateTime :=
  match parse_date_with_dateparser avail oracle currentYear l with
  | some dt => some dt
  | none => parse_simple_dateL currentYear l

/-- The first-line date removal of `_extract_title` (`re.sub` of the numeric
date-token pattern with the empty string): remove every
non-overlapping leftmost date token (fuel-driven; each step consumes ≥ 1
character). -/
def subDateTokAux : Nat → List Char → List Char
  | 0, l => l
  | _ + 1, [] => []
  | fuel + 1, c :: t =>
    match matchDateTokLen (c :: t) with
    | some n => subDateTokAux fuel ((c :: t).drop n)
    | none => c :: subDateTokAux fuel t

def subDateTok (l : List Char) : List Char := subDateTokAux (l.length + 1) l

/-- The capture class `[^:。.!\n?]` of the title pattern. -/
def titleClass (c : Char) : Bool :=
  !(c = ':' || c.val = 0x3002 || c = '.' || c = '!' || c = '\n' || c = '?')

/-- After the lazy group of the title pattern: whitespace/colon star, then
four digits, then a dash, slash or `年`.
The star class contains no digits, so its greedy munch is forced maximal. -/
def titleRest (l : List Char) : Bool :=
  match l.dropWhile (fun c => pyIsSpace c || c = ':' || c.val = 0xff1a) with
  | a :: b :: c :: d :: e :: _ =>
    a.isDigit && b.isDigit && c.isDigit && d.isDigit &&
      (e = '-' || e = '/' || e = '年')
  | _ => false

/-- One lazy length `{5,100}?` attempt of the title pattern at a position. -/
def titleTryLen (l : List Char) (n : Nat) : Option (List Char) :=
  if (l.take n).length = n && (l.take n).all titleClass && titleRest (l.drop n) then
    some (l.take n)
  else none

/-- The title search pattern (lazy capture of 5–100 non-delimiter characters
before a year marker) at a fixed position: lazy
repetition tries lengths 5, 6, …, 100 in that order. -/
def titleMatchAt (l : List Char) : Option (List Char) :=
  (List.range' 5 96).foldr (fun n acc => titleTryLen l n <|> acc) none

/-- `ParserService._extract_title`: first line if short (after stripping
embedded numeric dates), else the text before the first `YYYY-`/`YYYY年`
marker; `None` otherwise.  The body is total, so the handler is dead code. -/
def extractTitleL (l : List Char) : Option (List Char) :=
  let r1 : Option (List Char) :=
    match splitOnChar '\n' l with
    | f :: _ =>
      let fl := pyStripL f
      if fl ≠ [] && fl.length < 100 then
        let t := pyStripL (subDateTok fl)
        if t ≠ [] then some t else none
      else none
    | [] => none
  match r1 with
  | some t => some t
  | none =>
    match reSearch titleMatchAt l with
    | some g =>
      let t := pyStripL g
      if t ≠ [] then some t else none
    | none => none

/-- The capture class `[^\n,，。;；]` of the location patterns. -/
def locClass (c : Char) : Bool :=
  !(c = '\n' || c = ',' || c.val = 0xff0c || c.val = 0x3002 || c = ';' || c.val = 0xff1b)

/-- One location pattern `LABEL[:：]\s*([^\n,，。;；]*)` at a fixed position
(`\s*` is forced maximal by the capture's greedy star having no constraint
after it, and a shorter munch only moves whitespace into the capture, which
Python's greedy `\s*` never does). -/
def locPat (label : List Char) (l : List Char) : Option (List Char) :=
  match matchPrefixCI label l with
  | some r =>
    chCl (fun c => c = ':' || c.val = 0xff1a) r fun _ r1 =>
      some ((r1.dropWhile pyIsSpace).takeWhile locClass)
  | none => none

/-- The four location labels, in source order (matched case-insensitively). -/
def locLabels : List (List Char) :=
  ["地点".data, "location".data, "地址".data, "会议地点".data]

/-- `ParserService._extract_location`: first label pattern whose first match
captures a non-empty group of fewer than 200 characters; a matching pattern
with an unusable group falls through to the next pattern. -/
def extractLocationL (l : List Char) : Option (List Char) :=
  locLabels.foldr
    (fun label acc =>
      match reSearch (locPat label) l with
      | some g =>
        let loc := pyStripL g
        if loc ≠ [] && loc.length < 200 then some loc else acc
      | none => acc)
    none

/-- `ParserService._extract_description`: the full cleaned text, truncated to
500 characters; empty text → `None`. -/
def extractDescriptionL (l : List Char) : Option (List Char) :=
  if l.length > 500 then some (l.take 500)
  else if l ≠ [] then some l else none

/-- The high-priority keywords of `_extract_priority`, in source order. -/
def highKeywords : List (List Char) :=
  ["urgent".data, "asap".data, "important".data, "emergency".data,
   "紧急".data, "重要".data, "立即".data, "紧".data]

/-- The low-priority keywords of `_extract_priority`, in source order. -/
def lowKeywords : List (List Char) :=
  ["optional".data, "whenever".data, "when available".data, "flexible".data,
   "可选".data, "随意".data, "灵活".data]

/-- `ParserService._extract_priority`: case-insensitive keyword scan, high
keywords checked before low, default medium. -/
def extractPriorityL (l : List Char) : EventPriority :=
  let low := lowerL l
  if highKeywords.any (fun kw => containsL kw low) then .high
  else if lowKeywords.any (fun kw => containsL kw low) then .low
  else .medium

/-- The errors `ParserService.parse` can raise: the empty-input `ValueError`
and the `OverflowError` from computing `end_time` (both re-raised by the
handler at lines 83–88). -/
inductive ParseError
  | emptyText
  | overflow
deriving DecidableEq, Repr

/-- The start datetime `ParserService.parse` ends up with for a given input:
the extracted datetime, or `datetime.now()` (the `now` parameter) as
fallback. -/
def parsedStart (avail : Bool) (oracle : List Char → Option PyDateTime)
    (now : PyDateTime) (text : String) : PyDateTime :=
  match extractDatetimeL avail oracle now.year (trimTextL text.data) with
  | some d => d
  | none => now

/-- `ParserService.parse` (`now` stands for `datetime.now()` /
`datetime.date.today()`, whose year seeds the regex cascade's default). -/
def ParserService.parse (avail : Bool) (oracle : List Char → Option PyDateTime)
    (now : PyDateTime) (text : String) : Except ParseError (List Event) :=
  if text.data = [] ∨ pyStripL text.data = [] then .error .emptyText
  else
    let cleaned := trimTextL text.data
    let parsed_date := parsedStart avail oracle now text
    let title := match extractTitleL cleaned with
      | some t => t
      | none => "Untitled Event".data
    let location := extractLocationL cleaned
    let description := extractDescriptionL cleaned
    match addOneHour parsed_date with
    | none => .error .overflow
    | some end_time =>
      .ok [⟨title, parsed_date, end_time, location, description,
            extractPriorityL cleaned, some 15⟩]

/-- Decidable equality of `Except` results (for evaluating `parse` on
concrete inputs). -/
instance instDecEqExcept {ε α : Type} [DecidableEq ε] [DecidableEq α] :
    DecidableEq (Except ε α) := fun x y =>
  match x, y with
  | .ok a, .ok b =>
    if h : a = b then .isTrue (by rw [h]) else .isFalse (fun hh => h (Except.ok.inj hh))
  | .error a, .error b =>
    if h : a = b then .isTrue (by rw [h]) else .isFalse (fun hh => h (Except.error.inj hh))
  | .ok _, .error _ => .isFalse (fun hh => Except.noConfusion hh)
  | .error _, .ok _ => .isFalse (fun hh => Except.noConfusion hh)

/-- Length of the returned event list, `none` on a raised exception (used to
state claims about the shape of `parse` results). -/
def parseCount (r : Except ParseError (List Event)) : Option Nat :=
  match r with
  | .ok es => some es.length
  | .error _ => none

/-- Location/priority/start/end projection of a `parse` result (used to state
claims about field extraction). -/
def eventsView (r : Except ParseError (List Event)) :
    Option (List (Option (List Char) × EventPriority × PyDateTime × PyDateTime)) :=
  match r with
  | .ok es => some (es.map fun e => (e.location, e.priority, e.start_time, e.end_time))
  | .error _ => none

/-- End-time projection of a `parse` result. -/
def endTimesView (r : Except ParseError (List Event)) : Option (List PyDateTime) :=
  match r with
  | .ok es => some (es.map (·.end_time))
  | .error _ => none

/-- The `dateparser` oracle that finds nothing (the library failing or
unavailable on the given text). -/
def noOracle : List Char → Option PyDateTime := fun _ => none

/-- No two adjacent spaces (the space-collapsing `re.sub` finds nothing to
collapse). -/
def noTwoSpace : List Char → Bool
  | [] => true
  | [_] => true
  | a :: b :: t => !(a = ' ' && b = ' ') && noTwoSpace (b :: t)

/-- No two adjacent characters of the collapsible punctuation class. -/
def noPunctPair : List Char → Bool
  | [] => true
  | [_] => true
  | a :: b :: t => !(isPunctRun a && isPunctRun b) && noPunctPair (b :: t)

/-- A string in normalized form: no leading or trailing whitespace, no
whitespace other than single spaces, no OCR artifact glyphs, no full-width
punctuation, and no runs of two or more collapsible ASCII punctuation
characters.  `trim_text` maps every such string to itself. -/
def NormalForm (l : List Char) : Bool :=
  noTwoSpace l && noPunctPair l &&
  (match l.head? with
   | some c => !pyIsSpace c
   | none => true) &&
  (match l.getLast? with
   | some c => !pyIsSpace c
   | none => true) &&
  l.all fun c => (c = ' ' || !pyIsSpace c) && !isOcrGlyph c && cnMap c = c

/-! ### Helper lemmas -/

theorem mkDatetime_valid {y mo d hh mi : Nat} {dt : PyDateTime}
    (h : mkDatetime y mo d hh mi = some dt) : dt.Valid := by
  unfold mkDatetime at h
  split at h
  next hc => cases h; exact hc
  next => cases h

theorem optFirst_eq_some {α : Type} {x : α} :
    ∀ {l : List (Option α)}, optFirst l = some x → some x ∈ l := by
  intro l
  induction l with
  | nil => intro h; cases h
  | cons a t ih =>
    intro h
    unfold optFirst at h
    cases a with
    | some v => simp at h; subst h; exact List.mem_cons_self _ _
    | none => simp at h; exact List.mem_cons_of_mem _ (ih h)

theorem buildFromGroups_valid {g : DateGroups} {cy : Nat} {dt : PyDateTime}
    (h : buildFromGroups g cy = some dt) : dt.Valid := by
  rcases g with ⟨gy, gmo, gnm, gd, gh, gmi⟩
  unfold buildFromGroups at h
  dsimp at h
  cases gmo with
  | some v => exact mkDatetime_valid h
  | none =>
    cases gnm with
    | some nm =>
      dsimp at h
      cases hml : monthLookup nm with
      | none => rw [hml] at h; cases h
      | some mo => rw [hml] at h; exact mkDatetime_valid h
    | none => cases h

/-- Every datetime produced by the regex cascade passed `datetime`'s
constructor validation. -/
theorem parse_simple_dateL_valid {cy : Nat} {l : List Char} {dt : PyDateTime}
    (h : parse_simple_dateL cy l = some dt) : dt.Valid := by
  unfold parse_simple_dateL at h
  split at h
  · cases h
  · have hm := optFirst_eq_some h
    rw [List.mem_map] at hm
    obtain ⟨p, _, hp⟩ := hm
    rw [Option.bind_eq_some] at hp
    obtain ⟨g, _, hg⟩ := hp
    exact buildFromGroups_valid hg

theorem addOneDay_dateLt {d e : PyDateTime} (h : addOneDay d = some e) :
    d.year < e.year ∨ (d.year = e.year ∧
      (d.month < e.month ∨ (d.month = e.month ∧ d.day < e.day))) := by
  unfold addOneDay at h
  split at h
  · cases h; right; exact ⟨rfl, Or.inr ⟨rfl, Nat.lt_succ_self _⟩⟩
  · split at h
    · cases h; right; exact ⟨rfl, Or.inl (Nat.lt_succ_self _)⟩
    · split at h
      · cases h; left; exact Nat.lt_succ_self _
      · cases h

theorem ltB_of_dateLt {a b : PyDateTime}
    (h : a.year < b.year ∨ (a.year = b.year ∧
      (a.month < b.month ∨ (a.month = b.month ∧ a.day < b.day)))) :
    a.ltB b = true := by
  unfold PyDateTime.ltB
  split_ifs <;> simp_all

theorem not_ltB_of_dateLt {a b : PyDateTime}
    (h : a.year < b.year ∨ (a.year = b.year ∧
      (a.month < b.month ∨ (a.month = b.month ∧ a.day < b.day)))) :
    b.ltB a = false := by
  unfold PyDateTime.ltB
  split_ifs <;> simp_all <;> omega

theorem addOneHour_lt {d e : PyDateTime} (h : addOneHour d = some e) :
    d.ltB e = true := by
  unfold addOneHour at h
  split at h
  · cases h
    unfold PyDateTime.ltB
    split_ifs <;> simp_all
  · have hd := addOneDay_dateLt h
    exact @ltB_of_dateLt d e hd

/-- Inversion of `ParserService.parse` on success: the result is a single
event whose start is `parsedStart` and whose end is one hour later. -/
theorem parse_ok_inv {avail : Bool} {oracle : List Char → Option PyDateTime}
    {now : PyDateTime} {text : String} {es : List Event}
    (h : ParserService.parse avail oracle now text = .ok es) :
    ∃ ev : Event, es = [ev] ∧ ev.start_time = parsedStart avail oracle now text ∧
      addOneHour (parsedStart avail oracle now text) = some ev.end_time := by
  unfold ParserService.parse at h
  split at h
  · cases h
  · dsimp only at h
    split at h
    next => cases h
    next end_time heq =>
      cases h
      exact ⟨_, rfl, rfl, heq⟩

/-! ### Claim C1 -/

/-- C1 (counterexample): the claim says `parse` segments the text and returns
one event record per fragment.  On a two-fragment numbered input the
segmenter `extract_event_number` does produce 2 fragments, both of which
would process successfully, but `parse` returns exactly 1 event record: it
never invokes the segmenter. -/
theorem parse_ignores_segmentation_cex :
    (extract_event_number "1. First event 2025-11-24\n2. Second event 2025-11-25").length = 2 ∧
    parseCount (ParserService.parse false noOracle ⟨2025, 1, 1, 12, 0⟩
      "1. First event 2025-11-24\n2. Second event 2025-11-25") = some 1 := by
  constructor
  · decide
  · decide

/-- C1 (amended): `parse` normalizes the text and runs datetime / title /
location / description / priority extraction once on the whole cleaned text;
whenever it returns (rather than raising), the result is exactly one event
record, regardless of how many fragments the (uninvoked) segmenter would
produce. -/
theorem parse_returns_single_event {avail : Bool}
    {oracle : List Char → Option PyDateTime} {now : PyDateTime} {text : String}
    {es : List Event} (h : ParserService.parse avail oracle now text = .ok es) :
    es.length = 1 := by
  obtain ⟨ev, rfl, -, -⟩ := parse_ok_inv h
  rfl

/-- Witness for `parse_returns_single_event` at a concrete input. -/
theorem parse_returns_single_event_witness :
    ParserService.parse false noOracle ⟨2025, 1, 1, 12, 0⟩ "m 2025-11-24" =
      .ok [⟨"m".data, ⟨2025, 11, 24, 0, 0⟩, ⟨2025, 11, 24, 1, 0⟩, none,
            some "m 2025-11-24".data, .medium, some 15⟩] ∧
    ([⟨"m".data, ⟨2025, 11, 24, 0, 0⟩, ⟨2025, 11, 24, 1, 0⟩, none,
       some "m 2025-11-24".data, EventPriority.medium, some 15⟩] : List Event).length = 1 :=
  ⟨by decide,
   @parse_returns_single_event false noOracle ⟨2025, 1, 1, 12, 0⟩ "m 2025-11-24"
     [⟨"m".data, ⟨2025, 11, 24, 0, 0⟩, ⟨2025, 11, 24, 1, 0⟩, none,
       some "m 2025-11-24".data, EventPriority.medium, some 15⟩] (by decide)⟩

/-! ### Claim C2 -/

/-- C2 (counterexample): the claim says an exception while processing a
fragment is caught and the fragment dropped, never propagating out of
`parse`.  On the non-empty input `"9999-12-31 23:30"` the end-time
computation `start + timedelta(hours=1)` overflows and `parse` re-raises:
the exception propagates to the caller. -/
theorem parse_exception_propagates_cex :
    pyStripL "9999-12-31 23:30".data ≠ [] ∧
    ParserService.parse false noOracle ⟨2025, 1, 1, 12, 0⟩ "9999-12-31 23:30" =
      .error .overflow := by
  constructor
  · decide
  · decide

/-- C2 (amended): an exception raised while processing the text is logged and
re-raised, not caught: whenever the input passes validation but the end-time
computation fails (datetime overflow), `parse` propagates the error to the
caller instead of dropping the fragment and continuing. -/
theorem parse_propagates_processing_error (avail : Bool)
    (oracle : List Char → Option PyDateTime) (now : PyDateTime) (text : String)
    (h1 : pyStripL text.data ≠ [])
    (h2 : addOneHour (parsedStart avail oracle now text) = none) :
    ParserService.parse avail oracle now text = .error .overflow := by
  unfold ParserService.parse
  rw [if_neg]
  · dsimp only
    rw [h2]
  · rintro (hc | hc)
    · exact h1 (by rw [hc]; rfl)
    · exact h1 hc

/-- Witness for `parse_propagates_processing_error` at a concrete input. -/
theorem parse_propagates_processing_error_witness :
    pyStripL "9999-12-31 23:30".data ≠ [] ∧
    addOneHour (parsedStart false noOracle ⟨2025, 1, 1, 12, 0⟩ "9999-12-31 23:30") = none ∧
    ParserService.parse false noOracle ⟨2025, 1, 1, 12, 0⟩ "9999-12-31 23:30" =
      .error .overflow :=
  ⟨by decide, by decide,
   parse_propagates_processing_error false noOracle ⟨2025, 1, 1, 12, 0⟩ "9999-12-31 23:30"
     (by decide) (by decide)⟩

/-! ### Claim C3 -/

/-- C3 (counterexample): the claim says that when no date pattern matches
anywhere, `parse` returns an empty sequence.  On `"just some random text"`
(no date pattern matches) `parse` returns one event record, not zero. -/
theorem parse_no_date_nonempty_cex :
    parseCount (ParserService.parse false noOracle ⟨2025, 1, 1, 12, 0⟩
      "just some random text") = some 1 := by
  decide

/-- C3 (amended): when no date pattern matches anywhere in the text, `parse`
does not raise; it falls back to the current processing time (`datetime.now()`)
as the start and returns a single event record with that start and an end one
hour later, rather than an empty sequence. -/
theorem parse_no_date_falls_back_to_now (avail : Bool)
    (oracle : List Char → Option PyDateTime) (now : PyDateTime) (text : String)
    (e : PyDateTime)
    (h1 : pyStripL text.data ≠ [])
    (h2 : extractDatetimeL avail oracle now.year (trimTextL text.data) = none)
    (h3 : addOneHour now = some e) :
    ∃ ev : Event, ParserService.parse avail oracle now text = .ok [ev] ∧
      ev.start_time = now ∧ ev.end_time = e := by
  have hcond : ¬(text.data = [] ∨ pyStripL text.data = []) := by
    rintro (hc | hc)
    · exact h1 (by rw [hc]; rfl)
    · exact h1 hc
  have hps : parsedStart avail oracle now text = now := by
    unfold parsedStart; rw [h2]
  cases hok : ParserService.parse avail oracle now text with
  | error err =>
    exfalso
    unfold ParserService.parse at hok
    rw [if_neg hcond] at hok
    dsimp only at hok
    rw [hps, h3] at hok
    cases hok
  | ok es =>
    obtain ⟨ev, rfl, hst, hend⟩ := parse_ok_inv hok
    rw [hps] at hst hend
    rw [h3] at hend
    exact ⟨ev, rfl, hst, (Option.some.inj hend).symm⟩

/-- Witness for `parse_no_date_falls_back_to_now` at a concrete input. -/
theorem parse_no_date_falls_back_to_now_witness :
    pyStripL "just some random text".data ≠ [] ∧
    extractDatetimeL false noOracle 2025 (trimTextL "just some random text".data) = none ∧
    addOneHour ⟨2025, 1, 1, 12, 0⟩ = some ⟨2025, 1, 1, 13, 0⟩ ∧
    (∃ ev : Event, ParserService.parse false noOracle ⟨2025, 1, 1, 12, 0⟩
        "just some random text" = .ok [ev] ∧
      ev.start_time = ⟨2025, 1, 1, 12, 0⟩ ∧ ev.end_time = ⟨2025, 1, 1, 13, 0⟩) :=
  ⟨by decide, by decide, by decide,
   parse_no_date_falls_back_to_now false noOracle ⟨2025, 1, 1, 12, 0⟩
     "just some random text" ⟨2025, 1, 1, 13, 0⟩ (by decide) (by decide) (by decide)⟩

/-! ### Claim C4 -/

/-- C4: every event record returned by `parse` has (non-null, by typing)
start and end times with `end_time` strictly after `start_time`; the end is
always `start_time + 1 hour` (so in particular when the text specifies no end
time, `end_time = start_time + 1 hour`). -/
theorem parse_end_after_start {avail : Bool}
    {oracle : List Char → Option PyDateTime} {now : PyDateTime} {text : String}
    {es : List Event} (h : ParserService.parse avail oracle now text = .ok es) :
    ∀ ev ∈ es, addOneHour ev.start_time = some ev.end_time ∧
      ev.start_time.ltB ev.end_time = true := by
  obtain ⟨ev, rfl, hst, hend⟩ := parse_ok_inv h
  intro e he
  rw [List.mem_singleton] at he
  subst he
  rw [hst]
  exact ⟨hend, addOneHour_lt hend⟩

/-- Witness for `parse_end_after_start` at a concrete input. -/
theorem parse_end_after_start_witness :
    ParserService.parse false noOracle ⟨2025, 1, 1, 12, 0⟩ "sync 2025-11-24 10:00" =
      .ok [⟨"sync  10:00".data, ⟨2025, 11, 24, 10, 0⟩, ⟨2025, 11, 24, 11, 0⟩, none,
            some "sync 2025-11-24 10:00".data, .medium, some 15⟩] ∧
    (∀ ev ∈ ([⟨"sync  10:00".data, ⟨2025, 11, 24, 10, 0⟩, ⟨2025, 11, 24, 11, 0⟩, none,
        some "sync 2025-11-24 10:00".data, EventPriority.medium, some 15⟩] : List Event),
      addOneHour ev.start_time = some ev.end_time ∧
        ev.start_time.ltB ev.end_time = true) :=
  ⟨by decide,
   @parse_end_after_start false noOracle ⟨2025, 1, 1, 12, 0⟩ "sync 2025-11-24 10:00"
     [⟨"sync  10:00".data, ⟨2025, 11, 24, 10, 0⟩, ⟨2025, 11, 24, 11, 0⟩, none,
       some "sync 2025-11-24 10:00".data, EventPriority.medium, some 15⟩] (by decide)⟩

/-! ### Claim C5 -/

/-- The end-to-end scenario input of the claim. -/
def c5str : String :=
  "Team Meeting, Location: Conference Room A, Date: 2025/11/24-2025/11/25, 14:30, urgent discussion"

/-- C5 (counterexample): the claim says the returned event's `end_time` falls
on calendar day 2025-11-25 (per the range and rollover rules).  `parse` uses
single-datetime extraction and always sets `end_time = start_time + 1 hour`,
so the end is 2025-11-24 01:00 — on day 24, not 25. -/
theorem parse_scenario_end_day_cex :
    endTimesView (ParserService.parse true noOracle ⟨2025, 10, 12, 9, 0⟩ c5str) =
      some [⟨2025, 11, 24, 1, 0⟩] := by
  decide

/-- C5 (amended): on the scenario input, `parse` returns exactly one event
record with location "Conference Room A", priority HIGH (high keywords take
precedence), `start_time` 2025-11-24 00:00 (the range's trailing 14:30 and
end date are ignored by the single-datetime extraction), and
`end_time = start_time + 1 hour` on the same day 2025-11-24. -/
theorem parse_scenario_fields :
    eventsView (ParserService.parse true noOracle ⟨2025, 10, 12, 9, 0⟩ c5str) =
      some [(some "Conference Room A".data, EventPriority.high,
             ⟨2025, 11, 24, 0, 0⟩, ⟨2025, 11, 24, 1, 0⟩)] := by
  decide

/-! ### Claim C6 -/

/-- C6: `parse` raises the input-validation error exactly on empty or
whitespace-only input (before any processing), and in particular on `""` and
`"   "`. -/
theorem parse_empty_validation (avail : Bool)
    (oracle : List Char → Option PyDateTime) (now : PyDateTime) :
    (∀ text : String,
      ParserService.parse avail oracle now text = .error .emptyText ↔
        pyStripL text.data = []) ∧
    ParserService.parse avail oracle now "" = .error .emptyText ∧
    ParserService.parse avail oracle now "   " = .error .emptyText := by
  have hiff : ∀ text : String,
      ParserService.parse avail oracle now text = .error .emptyText ↔
        pyStripL text.data = [] := by
    intro text
    constructor
    · intro h
      unfold ParserService.parse at h
      split at h
      next hc =>
        rcases hc with hc | hc
        · rw [hc]; rfl
        · exact hc
      next =>
        dsimp only at h
        split at h <;> cases h
    · intro h
      unfold ParserService.parse
      rw [if_pos (Or.inr h)]
  exact ⟨hiff, (hiff "").mpr (by decide), (hiff "   ").mpr (by decide)⟩

/-! ### Claim C7 -/

/-- C7: when the fragment contains two date tokens joined by a range
separator (the `range_pattern` finds a match with sides `g1`, `g2`), each
side is parsed as a simple date; a trailing time-of-day found in the 20
characters after the range is attached to the start (`attachStartE`); and
the end is returned as `eodFix en` — end-of-day 23:59 of its date whenever
the parsed end has zero time-of-day.  In particular
`"2025-11-24-2025-11-25"` yields start 2025-11-24 00:00 and end
2025-11-25 23:59 (see the witness). -/
theorem extract_range_date_range (avail : Bool)
    (oracle : List Char → Option PyDateTime) (cy : Nat) (text : String)
    (g1 g2 rest : List Char) (st st2 en : PyDateTime)
    (hr : reSearch matchRangeAt text.data = some (g1, g2, rest))
    (hs : parse_simple_dateL cy g1 = some st)
    (ha : attachStartE rest st = .ok st2)
    (he : parse_simple_dateL cy g2 = some en) :
    extract_datetime_range avail oracle cy text = (some st2, some (eodFix en)) := by
  have hne : text.data ≠ [] := by
    intro hnil
    rw [hnil] at hr
    cases hr
  unfold extract_datetime_range edrBody rangeStep
  rw [if_neg hne, hr]
  dsimp only
  rw [hs]
  dsimp only
  rw [ha]
  dsimp only
  rw [he]

/-- Witness for `extract_range_date_range` at the claim's own input. -/
theorem extract_range_date_range_witness :
    reSearch matchRangeAt "2025-11-24-2025-11-25".data =
      some ("2025-11-24".data, "2025-11-25".data, []) ∧
    parse_simple_dateL 2025 "2025-11-24".data = some ⟨2025, 11, 24, 0, 0⟩ ∧
    attachStartE [] ⟨2025, 11, 24, 0, 0⟩ = .ok ⟨2025, 11, 24, 0, 0⟩ ∧
    parse_simple_dateL 2025 "2025-11-25".data = some ⟨2025, 11, 25, 0, 0⟩ ∧
    eodFix ⟨2025, 11, 25, 0, 0⟩ = ⟨2025, 11, 25, 23, 59⟩ ∧
    extract_datetime_range false noOracle 2025 "2025-11-24-2025-11-25" =
      (some ⟨2025, 11, 24, 0, 0⟩, some (eodFix ⟨2025, 11, 25, 0, 0⟩)) :=
  ⟨by decide, by decide, by decide, by decide, by decide,
   extract_range_date_range false noOracle 2025 "2025-11-24-2025-11-25"
     "2025-11-24".data "2025-11-25".data [] ⟨2025, 11, 24, 0, 0⟩ ⟨2025, 11, 24, 0, 0⟩
     ⟨2025, 11, 25, 0, 0⟩ (by decide) (by decide) (by decide) (by decide)⟩

/-! ### Claim C8 -/

/-- C8 (counterexample): the claim says that whenever `extract_range` returns
both a start and an end, `end >= start` (end-before-start always resolved by
day rollover).  On `"2025-11-25-2025-11-24"` the explicit date-range branch
returns start 2025-11-25 00:00 and end 2025-11-24 23:59 with no rollover:
the end precedes the start. -/
theorem extract_range_end_before_start_cex :
    extract_datetime_range false noOracle 2025 "2025-11-25-2025-11-24" =
      (some ⟨2025, 11, 25, 0, 0⟩, some ⟨2025, 11, 24, 23, 59⟩) ∧
    PyDateTime.ltB ⟨2025, 11, 24, 23, 59⟩ ⟨2025, 11, 25, 0, 0⟩ = true := by
  constructor
  · decide
  · decide

/-- C8 (amended): the day-rollover guarantee holds only in the single-anchor
time-range branch: whenever the explicit date-range branch does not return
(`rangeStep` falls through) and `extract_range` returns both a start and an
end, `end >= start` — an end before the start is rolled to the next calendar
day and end-before-start is never raised as an error.  In the explicit
date-range branch the end may precede the start (see the counterexample),
still without raising. -/
theorem extract_range_time_branch_rollover (avail : Bool)
    (oracle : List Char → Option PyDateTime) (cy : Nat) (text : String)
    (s e : PyDateTime)
    (hnr : rangeStep cy text.data = .ok none)
    (h : extract_datetime_range avail oracle cy text = (some s, some e)) :
    s.leB e = true := by
  unfold extract_datetime_range edrBody at h
  by_cases hnil : text.data = []
  · rw [if_pos hnil] at h
    simp at h
  · rw [if_neg hnil, hnr] at h
    split at h
    next p hp =>
      subst h
      unfold timeRangeStep at hp
      dsimp only at hp
      split at hp
      · cases hp
      · split at hp
        · cases hp
        · next sh sm eh em heq =>
          split at hp
          · cases hp
          · next st2 hrep1 =>
            split at hp
            · cases hp
            · next en0 hrep2 =>
              split at hp
              · split at hp
                · cases hp
                · next en had =>
                  injection hp with hp2
                  rw [Prod.mk.injEq] at hp2
                  obtain ⟨h1, h2⟩ := hp2
                  cases h1
                  cases h2
                  unfold PyDateTime.replaceHM at hrep2
                  split at hrep2
                  · cases hrep2
                    have hlt2 := addOneDay_dateLt had
                    have hne := @not_ltB_of_dateLt s e hlt2
                    unfold PyDateTime.leB
                    rw [hne]
                    rfl
                  · cases hrep2
              · next hlt =>
                injection hp with hp2
                rw [Prod.mk.injEq] at hp2
                obtain ⟨h1, h2⟩ := hp2
                cases h1
                cases h2
                simp only [Bool.not_eq_true] at hlt
                unfold PyDateTime.leB
                rw [hlt]
                rfl
    next a ha =>
      simp at h

/-- Witness for `extract_range_time_branch_rollover` at the spec's overnight
example: start 23:00, end 01:00 on the same anchor date 2025-11-24; the end
rolls to 2025-11-25 01:00, after the start. -/
theorem extract_range_time_branch_rollover_witness :
    rangeStep 2025 "2025-11-24 23:00-01:00".data = .ok none ∧
    extract_datetime_range false noOracle 2025 "2025-11-24 23:00-01:00" =
      (some ⟨2025, 11, 24, 23, 0⟩, some ⟨2025, 11, 25, 1, 0⟩) ∧
    PyDateTime.leB ⟨2025, 11, 24, 23, 0⟩ ⟨2025, 11, 25, 1, 0⟩ = true :=
  ⟨by decide, by decide,
   extract_range_time_branch_rollover false noOracle 2025 "2025-11-24 23:00-01:00"
     ⟨2025, 11, 24, 23, 0⟩ ⟨2025, 11, 25, 1, 0⟩ (by decide) (by decide)⟩

/-! ### Claim C9 -/

theorem isNlTab_space {c : Char} (h : isNlTab c = true) :
    pyIsSpace c = true ∧ (c = ' ') = False := by
  unfold isNlTab at h
  simp only [Bool.or_eq_true, decide_eq_true_eq] at h
  rcases h with (h | h) | h <;> subst h <;> exact ⟨by decide, by simp⟩

theorem noTwoSpace_tail {c : Char} {t : List Char} (h : noTwoSpace (c :: t) = true) :
    noTwoSpace t = true := by
  cases t with
  | nil => rfl
  | cons d t2 =>
    unfold noTwoSpace at h
    exact (Bool.and_eq_true _ _ |>.mp h).2

theorem noPunctPair_tail {c : Char} {t : List Char} (h : noPunctPair (c :: t) = true) :
    noPunctPair t = true := by
  cases t with
  | nil => rfl
  | cons d t2 =>
    unfold noPunctPair at h
    exact (Bool.and_eq_true _ _ |>.mp h).2

theorem dropLeadingSpaces_noop {l : List Char}
    (h : (match l.head? with
          | some c => !pyIsSpace c
          | none => true) = true) :
    dropLeadingSpaces l = l := by
  cases l with
  | nil => rfl
  | cons c t =>
    simp only [List.head?] at h
    unfold dropLeadingSpaces
    rw [List.dropWhile_cons, if_neg]
    simp only [Bool.not_eq_true'] at h
    simp [h]

theorem dropTrailingSpaces_noop : ∀ l : List Char,
    (match l.getLast? with
     | some c => !pyIsSpace c
     | none => true) = true →
    dropTrailingSpaces l = l := by
  intro l
  induction l with
  | nil => intro _; rfl
  | cons c t ih =>
    intro h
    cases t with
    | nil =>
      simp only [List.getLast?_singleton] at h
      unfold dropTrailingSpaces
      simp only [Bool.not_eq_true'] at h
      simp [dropTrailingSpaces, h]
    | cons d t2 =>
      rw [List.getLast?_cons_cons] at h
      have ht := ih h
      unfold dropTrailingSpaces
      rw [ht]

theorem pyStripL_noop {l : List Char}
    (hh : (match l.head? with
           | some c => !pyIsSpace c
           | none => true) = true)
    (hl : (match l.getLast? with
           | some c => !pyIsSpace c
           | none => true) = true) :
    pyStripL l = l := by
  unfold pyStripL
  rw [dropLeadingSpaces_noop hh, dropTrailingSpaces_noop l hl]

theorem collapseRuns_flag (p : Char → Bool) (r : Char) (l : List Char)
    (h : (match l.head? with
          | some c => p c
          | none => false) = false) :
    collapseRuns p r true l = collapseRuns p r false l := by
  cases l with
  | nil => rfl
  | cons c t =>
    simp only [List.head?] at h
    unfold collapseRuns
    simp [h]

theorem collapseSpaces_noop : ∀ l : List Char, noTwoSpace l = true →
    collapseRuns (· = ' ') ' ' false l = l := by
  intro l
  induction l with
  | nil => intro _; rfl
  | cons c t ih =>
    intro h
    unfold collapseRuns
    by_cases hc : c = ' '
    · subst hc
      rw [if_pos (by simp)]
      have hhead : (match t.head? with
          | some x => decide (x = ' ')
          | none => false) = false := by
        cases t with
        | nil => rfl
        | cons d t2 =>
          unfold noTwoSpace at h
          have := (Bool.and_eq_true _ _ |>.mp h).1
          simp only [List.head?, decide_eq_true_eq]
          simp only [Bool.not_eq_true', Bool.and_eq_false_iff] at this
          rcases this with h1 | h1
          · simp at h1
          · simp [h1]
      rw [collapseRuns_flag _ _ _ hhead, ih (noTwoSpace_tail h)]
      rfl
    · rw [if_neg (by simp [hc]), ih (noTwoSpace_tail h)]

theorem collapseRuns_noop_of_none (p : Char → Bool) (r : Char) :
    ∀ (b : Bool) (l : List Char), (∀ c ∈ l, p c = false) →
      collapseRuns p r b l = l := by
  intro b l
  induction l generalizing b with
  | nil => intro _; rfl
  | cons c t ih =>
    intro h
    unfold collapseRuns
    rw [if_neg, ih false (fun x hx => h x (List.mem_cons_of_mem _ hx))]
    simp [h c (List.mem_cons_self _ _)]

theorem ocrSub_noop : ∀ (b : Bool) (l : List Char),
    (∀ c ∈ l, isOcrGlyph c = false) → ocrSub b l = l := by
  intro b l
  induction l generalizing b with
  | nil => intro _; rfl
  | cons c t ih =>
    intro h
    cases t with
    | nil => rfl
    | cons d t2 =>
      unfold ocrSub
      rw [if_neg]
      · rw [ih (pyIsWord c) (fun x hx => h x (List.mem_cons_of_mem _ hx))]
      · simp [h c (List.mem_cons_self _ _)]

theorem mapCn_noop : ∀ l : List Char, (∀ c ∈ l, cnMap c = c) → l.map cnMap = l := by
  intro l
  induction l with
  | nil => intro _; rfl
  | cons c t ih =>
    intro h
    simp only [List.map_cons, h c (List.mem_cons_self _ _),
      ih (fun x hx => h x (List.mem_cons_of_mem _ hx))]

theorem punctCollapseAux_noop : ∀ (fuel : Nat) (l : List Char),
    noPunctPair l = true → punctCollapseAux fuel l = l := by
  intro fuel
  induction fuel with
  | zero => intro l _; rfl
  | succ f ih =>
    intro l h
    cases l with
    | nil => rfl
    | cons c t =>
      unfold punctCollapseAux
      by_cases hc : isPunctRun c = true
      · rw [if_pos hc]
        have hdw : t.dropWhile isPunctRun = t := by
          cases t with
          | nil => rfl
          | cons d t2 =>
            rw [List.dropWhile_cons, if_neg]
            unfold noPunctPair at h
            have := (Bool.and_eq_true _ _ |>.mp h).1
            simp only [Bool.not_eq_true', Bool.and_eq_false_iff] at this
            rcases this with h1 | h1
            · rw [hc] at h1; cases h1
            · simp [h1]
        rw [hdw, ih t (noPunctPair_tail h)]
      · rw [if_neg hc, ih t (noPunctPair_tail h)]

/-- C9 (counterexample): the claim says `normalize` is idempotent on every
string.  On `"a \n b"` the space-collapsing pass runs before the
newline-replacement pass, so one application yields `"a   b"` (a three-space
run) and a second application collapses it further to `"a b"`:
`normalize(normalize(s)) ≠ normalize(s)`. -/
theorem trim_text_not_idempotent_cex :
    trim_text "a \n b" = "a   b" ∧ trim_text "a   b" = "a b" ∧
    trim_text (trim_text "a \n b") ≠ trim_text "a \n b" := by
  refine ⟨by decide, by decide, by decide⟩

/-- C9 (amended): the normalizer is a deterministic, total function (it is a
pure Lean function; the Python body raises no exceptions), maps empty input
to the empty string, and maps every string already in normalized form — no
leading/trailing whitespace, no whitespace characters other than single
spaces, no OCR artifact glyphs, no full-width punctuation, no runs of 2+
collapsible punctuation — to itself.  Full idempotence fails: a newline
flanked by spaces yields a multi-space run that only a second pass collapses
(see the counterexample). -/
theorem trim_text_normal_form_fixed :
    trim_text "" = "" ∧
    ∀ s : String, NormalForm s.data = true → trim_text s = s := by
  refine ⟨rfl, fun s h => ?_⟩
  unfold NormalForm at h
  simp only [Bool.and_eq_true, List.all_eq_true] at h
  obtain ⟨⟨⟨⟨h2sp, hpp⟩, hhead⟩, hlast⟩, hall⟩ := h
  have hspace : ∀ c ∈ s.data, ((c = ' ') || !pyIsSpace c) = true := by
    intro c hc
    exact (hall c hc).1.1
  have hglyph : ∀ c ∈ s.data, isOcrGlyph c = false := by
    intro c hc
    have := (hall c hc).1.2
    simpa using this
  have hcn : ∀ c ∈ s.data, cnMap c = c := by
    intro c hc
    have := (hall c hc).2
    simpa using this
  have hnl : ∀ c ∈ s.data, isNlTab c = false := by
    intro c hc
    by_cases hn : isNlTab c = true
    · obtain ⟨hsp, hne⟩ := isNlTab_space hn
      have := hspace c hc
      rw [hsp] at this
      simp only [Bool.not_true, Bool.or_false] at this
      rw [decide_eq_true_eq] at this
      exact absurd this (by simpa using hne)
    · simpa using hn
  show (⟨trimTextL s.data⟩ : String) = s
  have hfix : trimTextL s.data = s.data := by
    by_cases hnil : s.data = []
    · rw [hnil]; rfl
    · unfold trimTextL
      rw [if_neg hnil]
      rw [pyStripL_noop hhead hlast]
      rw [collapseSpaces_noop _ h2sp]
      rw [collapseRuns_noop_of_none isNlTab ' ' false _ hnl]
      rw [ocrSub_noop false _ hglyph]
      rw [mapCn_noop _ hcn]
      unfold punctCollapse
      rw [punctCollapseAux_noop _ _ hpp]
      rw [pyStripL_noop hhead hlast]
  rw [hfix]

/-- Witness for the normalized-form clause of `trim_text_normal_form_fixed`
at a concrete normalized string. -/
theorem trim_text_normal_form_fixed_witness :
    NormalForm "Team sync, room A: 14:30.".data = true ∧
    trim_text "Team sync, room A: 14:30." = "Team sync, room A: 14:30." :=
  ⟨by decide, trim_text_normal_form_fixed.2 "Team sync, room A: 14:30." (by decide)⟩

/-! ### Claim C10 -/

/-- C10: `parse_simple_date` is total and never raises — every result is
either `None` or a datetime that passed the `datetime` constructor's
calendar validation.  A regex match whose components form an invalid
calendar date is rejected and the cascade continues with the remaining
patterns: on `"2025-02-30 11月22日"` the ISO pattern matches Feb 30
(invalid), is rejected, and the seventh (Chinese month/day) pattern then
produces day 11月22日 with the year defaulting to the current year and
hour/minute defaulting to 0.  If all seven patterns fail, the result is
`None`. -/
theorem parse_simple_date_total :
    (∀ (cy : Nat) (s : String) (d : PyDateTime), parse_simple_date cy s = some d → d.Valid) ∧
    parse_simple_date 2031 "2025-02-30 11月22日" = some ⟨2031, 11, 22, 0, 0⟩ ∧
    parse_simple_date 2031 "just some random text" = none ∧
    parse_simple_date 2031 "" = none :=
  ⟨fun _ _ _ h => parse_simple_dateL_valid h, by decide, by decide, by decide⟩

end EasyICS
